import Mathlib

/-!
Shallow embedding of the telegram-ai orchestration core: the function
registry and run-event processor (`agent.ts`), and the job store plus
schedule registry (`index.ts`).  Pure TypeScript functions become Lean
functions; JavaScript exceptions become `Except RuntimeError`; the
mutable `functions`/`tools`/`cronJobs`/`assistants` records become
explicit state values threaded through the operations.
-/

/-- JSON-like values, the payloads handlers receive and return.
`JSON.parse` of the tool-call argument string is modelled as the
already-parsed value. -/
inductive Value where
  | null
  | bool (b : Bool)
  | num (n : Int)
  | str (s : String)
  | arr (xs : List Value)
  | obj (fields : List (String × Value))

mutual

/-- Model of `JSON.stringify` on the modelled values. -/
def serialize : Value → String
  | Value.null => "null"
  | Value.bool b => cond b "true" "false"
  | Value.num n => toString n
  | Value.str s => "\x22" ++ s ++ "\x22"
  | Value.arr xs => "[" ++ serializeItems xs ++ "]"
  | Value.obj fs => "\x7b" ++ serializeFields fs ++ "\x7d"

/-- Comma-separated serialization of array elements. -/
def serializeItems : List Value → String
  | [] => ""
  | [x] => serialize x
  | x :: y :: rest => serialize x ++ "," ++ serializeItems (y :: rest)

/-- Comma-separated serialization of object fields. -/
def serializeFields : List (String × Value) → String
  | [] => ""
  | [(k, v)] => "\x22" ++ k ++ "\x22:" ++ serialize v
  | (k, v) :: kv :: rest =>
      "\x22" ++ k ++ "\x22:" ++ serialize v ++ "," ++ serializeFields (kv :: rest)

end

/-- Field schemata of the zod object schemas used by the registered tools:
a field is a string (`z.string()`) or a bounded integer
(`z.number().int().min(lo).max(hi)`). -/
inductive FieldSchema where
  | strField
  | intField (lo hi : Int)
deriving DecidableEq

/-- A zod object schema `z.object({...})`, as passed to `registerFunction`. -/
structure Schema where
  fields : List (String × FieldSchema)

/-- Whether a single value conforms to a field schema. -/
def conformsField : FieldSchema → Value → Bool
  | FieldSchema.strField, Value.str _ => true
  | FieldSchema.intField lo hi, Value.num n => decide (lo ≤ n) && decide (n ≤ hi)
  | _, _ => false

/-- Whether a value conforms to an object schema: it must be an object
carrying every declared field with a conforming value. -/
def conforms (s : Schema) (v : Value) : Bool :=
  match v with
  | Value.obj fs =>
      s.fields.all (fun kf =>
        match fs.find? (fun kv => kv.1 == kf.1) with
        | some kv => conformsField kf.2 kv.2
        | none => false)
  | _ => false

/-- A JavaScript runtime error: either an error thrown by a handler body,
or the `TypeError` raised by calling `functions[name]` when `name` is not
a key of the record (the value is `undefined`). -/
inductive RuntimeError where
  | thrown (msg : String)
  | typeError (msg : String)
deriving DecidableEq

/-- A registered handler: receives the parsed arguments and the thread id,
returns a value or throws. -/
def Handler : Type := Value → String → Except RuntimeError Value

/-- The descriptor stored in the `tools` record by `registerFunction`
(`type: "function"` with name, description and JSON-schema parameters). -/
structure ToolDescr where
  name : String
  description : String
  parameters : Schema

/-- The two module-level records of `agent.ts`:
`functions` (name to handler) and `tools` (name to descriptor). -/
structure RegistryState where
  functions : String → Option Handler
  tools : String → Option ToolDescr

/-- The initial empty registry. -/
def emptyRegistry : RegistryState :=
  { functions := fun _ => none, tools := fun _ => none }

/-- Model of `registerFunction(name, description, parameters, fn)`:
`functions[name] = fn; tools[name] = { type: "function", function: {...} }`.
Assignment to a record key overwrites any previous entry. -/
def registerFunction (st : RegistryState) (name description : String)
    (parameters : Schema) (fn : Handler) : RegistryState :=
  { functions := fun n => if n = name then some fn else st.functions n,
    tools := fun n => if n = name then some ⟨name, description, parameters⟩
                      else st.tools n }

/-- One tool call from a `requires_action` event:
`toolCall.id`, `toolCall.function.name`, and the parsed
`toolCall.function.arguments`. -/
structure ToolCall where
  id : String
  fname : String
  arguments : Value

/-- One entry of the submitted `tool_outputs` array. -/
structure ToolOutput where
  tool_call_id : String
  output : String
deriving DecidableEq

/-- The body of the `Promise.all` mapper in `handleRequiresAction`:
`const result = await functions[toolCall.function.name](args, threadId);
return { tool_call_id: toolCall.id, output: JSON.stringify(result) }`.
An unregistered name makes `functions[name]` `undefined`, so the call
raises a `TypeError`; a throwing handler rejects with its own error. -/
def processToolCall (functions : String → Option Handler) (threadId : String)
    (tc : ToolCall) : Except RuntimeError ToolOutput :=
  match functions tc.fname with
  | none => Except.error (RuntimeError.typeError (tc.fname ++ " is not a function"))
  | some f =>
    match f tc.arguments threadId with
    | Except.error e => Except.error e
    | Except.ok result =>
        Except.ok { tool_call_id := tc.id, output := serialize result }

/-- The output `processToolCall` produces for call id `cid` from a handler
result `r` (spec helper used to state dispatch theorems). -/
def dispatchResult (cid : String) (r : Except RuntimeError Value) :
    Except RuntimeError ToolOutput :=
  match r with
  | Except.error e => Except.error e
  | Except.ok v => Except.ok { tool_call_id := cid, output := serialize v }

/-- Model of `Promise.all((toolCalls).map(...))`: resolves with the list of outputs
in call order when every mapper resolves, rejects as soon as any mapper
rejects (discarding the sibling results). -/
def collectOutputs (functions : String → Option Handler) (threadId : String) :
    List ToolCall → Except RuntimeError (List ToolOutput)
  | [] => Except.ok []
  | tc :: rest =>
    match processToolCall functions threadId tc with
    | Except.error e => Except.error e
    | Except.ok out =>
      match collectOutputs functions threadId rest with
      | Except.error e => Except.error e
      | Except.ok outs => Except.ok (out :: outs)

/-- Model of `EventHandler.handleRequiresAction`: awaits the `Promise.all` over the
batch and submits the collected outputs; its `catch` swallows any
rejection (logging it), in which case nothing is submitted.  The result
is the batch passed to `submitToolOutputs`, or `none` when the error was
caught. -/
def handleRequiresAction (functions : String → Option Handler)
    (threadId : String) (toolCalls : List ToolCall) : Option (List ToolOutput) :=
  match collectOutputs functions threadId toolCalls with
  | Except.ok outs => some outs
  | Except.error _ => none

/-- One content part of a thread message; the completed-run branch only
distinguishes `type === "text"` from everything else. -/
inductive MessageContent where
  | text (value : String)
  | nonText (kind : String)
deriving DecidableEq

/-- One message of `messages.data` as returned by
`client.beta.threads.messages.list`. -/
structure ThreadMessage where
  role : String
  content : List MessageContent
deriving DecidableEq

/-- The completed-run branch of `EventHandler.onEvent`:
`(messages.data ?? []).find(m => m?.role === "assistant")?.content?.[0]`,
resolving only when that first content part has `type === "text"`. -/
def completedAnswer (messages : List ThreadMessage) : Option String :=
  match (messages.find? (fun m => m.role == "assistant")).bind
      (fun m => m.content.head?) with
  | some (MessageContent.text v) => some v
  | _ => none

/-- One `AssistantStreamEvent` as inspected by `onEvent`: the `event`
tag string, `data.required_action?.submit_tool_outputs.tool_calls`,
`data.last_error?.message`, `data.id` and `data.thread_id`. -/
structure StreamEvent where
  event : String
  toolCalls : Option (List ToolCall)
  lastError : Option String
  runId : String
  threadId : String

/-- The observable outcome of one `onEvent` invocation: the value passed
to `resolve` (if it was called), and the tool-output batch submitted
(if one was). -/
structure EventOutcome where
  resolved : Option String
  submitted : Option (List ToolOutput)
deriving DecidableEq

/-- Model of `EventHandler.onEvent` (agent.ts): dispatches on the event tag.
`thread.run.requires_action` runs the tool batch;
`thread.run.completed` looks up the latest assistant message and resolves
only when its first content part is textual;
`thread.run.failed` resolves with a German failure message interpolating
`last_error?.message` (JavaScript renders a missing message as the string
`"undefined"`).  Any other event tag — including `thread.run.cancelled` —
matches no branch and has no effect. -/
def onEvent (functions : String → Option Handler)
    (messages : List ThreadMessage) (e : StreamEvent) : EventOutcome :=
  if e.event == "thread.run.requires_action" then
    { resolved := none,
      submitted := handleRequiresAction functions e.threadId (e.toolCalls.getD []) }
  else if e.event == "thread.run.completed" then
    { resolved := completedAnswer messages, submitted := none }
  else if e.event == "thread.run.failed" then
    { resolved := some ("Der Run ist fehlgeschlagen: " ++ e.lastError.getD "undefined"),
      submitted := none }
  else
    { resolved := none, submitted := none }

/-- A row of the `tenants` table (`index.ts` interface `Tenant`). -/
structure Tenant where
  number : String
  system : String
  timezone : String
deriving DecidableEq

/-- A row of the `jobs` table (`index.ts` interface `Job`). -/
structure Job where
  id : Nat
  tenant : String
  hour : Nat
  minute : Nat
  prompt : String
deriving DecidableEq

/-- Model of the timezone lookup
`db.prepare("SELECT timezone FROM tenants WHERE number = ?").pluck().get(n)`:
the timezone of the first matching row, or `undefined` when no row matches. -/
def lookupTimezone (tenants : List Tenant) (number : String) : Option String :=
  (tenants.find? (fun t => t.number == number)).map Tenant.timezone

/-- One `CronJob` object: the schedule it was constructed with
(`"minute hour * * *"`, in the given timezone) and whether it is running.
`cronJobs[id].stop()` flips `running` to false; the object itself keeps
existing after it is dropped from the record. -/
structure Timer where
  jobId : Nat
  minute : Nat
  hour : Nat
  timeZone : Option String
  running : Bool
deriving DecidableEq

/-- The schedule registry: the log of every `CronJob` ever constructed
(in creation order, mutated in place by `stop()`), plus the `cronJobs`
record mapping a job id to the index of its registered timer in the log. -/
structure SchedState where
  timers : List Timer
  cronJobs : Nat → Option Nat

/-- The initial state: no timers, empty `cronJobs` record. -/
def emptySched : SchedState :=
  { timers := [], cronJobs := fun _ => none }

/-- Model of `cronJobs[id].stop()`: mark the timer at index `i` as not running
(no effect when the index is out of range). -/
def stopAt : List Timer → Nat → List Timer
  | [], _ => []
  | t :: rest, 0 => { t with running := false } :: rest
  | t :: rest, i + 1 => t :: stopAt rest i

/-- Model of `createPrompt(job)` (index.ts): returns at once when `job` is absent;
otherwise stops the existing timer for `job.id` if there is one, reads the
tenant's timezone from the store, constructs a new running `CronJob` on
`"minute hour * * *"` in that timezone, and stores it under `job.id`
(overwriting the record entry).  Note that a missing timezone does not
abort the registration. -/
def createPrompt (tenants : List Tenant) (s : SchedState) (job : Option Job) :
    SchedState :=
  match job with
  | none => s
  | some job =>
    let timers1 :=
      match s.cronJobs job.id with
      | some i => stopAt s.timers i
      | none => s.timers
    let timeZone := lookupTimezone tenants job.tenant
    let timer : Timer :=
      { jobId := job.id, minute := job.minute, hour := job.hour,
        timeZone := timeZone, running := true }
    { timers := timers1 ++ [timer],
      cronJobs := fun j => if j = job.id then some timers1.length
                           else s.cronJobs j }

/-- A sequence of `createPrompt` calls, executed left to right. -/
def runCreates (tenants : List Tenant) (s : SchedState) : List Job → SchedState
  | [] => s
  | j :: rest => runCreates tenants (createPrompt tenants s (some j)) rest

/-- The live (still running) timers for job id `J`, in creation order. -/
def liveFor (s : SchedState) (J : Nat) : List Timer :=
  s.timers.filter (fun t => t.jobId == J && t.running)

/-- The last job with id `J` in a registration sequence, if any. -/
def lastRegistered (J : Nat) : List Job → Option Job
  | [] => none
  | j :: rest =>
    match lastRegistered J rest with
    | some job => some job
    | none => if j.id = J then some j else none

/-- Registry invariant: every `cronJobs` entry points at a timer of its
own job id, and every running timer is the one its job id's entry points
at (so a job id never has two running timers). -/
def SchedInv (s : SchedState) : Prop :=
  (∀ J i, s.cronJobs J = some i →
      ∃ h : i < s.timers.length, (s.timers.get ⟨i, h⟩).jobId = J) ∧
  (∀ k (hk : k < s.timers.length), (s.timers.get ⟨k, hk⟩).running = true →
      s.cronJobs ((s.timers.get ⟨k, hk⟩).jobId) = some k)

/-- The `delete_prompt` tool handler:
`DELETE FROM jobs WHERE tenant = ? AND id = ?`, then — only when a row was
actually deleted and a timer is registered for that id — `stop()` the
timer and delete its `cronJobs` entry.  Returns the remaining rows, the
new schedule state and `result.changes`. -/
def deletePromptHandler (jobs : List Job) (s : SchedState) (tenant : String)
    (argsId : Nat) : List Job × SchedState × Nat :=
  let remaining := jobs.filter (fun j => !(j.tenant == tenant && j.id == argsId))
  let changes := (jobs.filter (fun j => j.tenant == tenant && j.id == argsId)).length
  let s1 :=
    if changes > 0 then
      match s.cronJobs argsId with
      | some i =>
          { timers := stopAt s.timers i,
            cronJobs := fun j => if j = argsId then none else s.cronJobs j }
      | none => s
    else s
  (remaining, s1, changes)

/-- The SQL part of the `edit_prompt` tool handler:
`UPDATE jobs SET prompt = COALESCE(?, prompt), hour = COALESCE(?, hour),
minute = COALESCE(?, minute) WHERE tenant = ? AND id = ?`.
Returns the updated rows and `result.changes`. -/
def editPromptRows (jobs : List Job) (prompt : Option String)
    (hour minute : Option Nat) (tenant : String) (argsId : Nat) :
    List Job × Nat :=
  (jobs.map (fun j =>
      if j.tenant == tenant && j.id == argsId then
        { j with prompt := prompt.getD j.prompt, hour := hour.getD j.hour,
                 minute := minute.getD j.minute }
      else j),
   (jobs.filter (fun j => j.tenant == tenant && j.id == argsId)).length)

/-- One assistant object as the OpenAI API stores it: its id, its
instructions, and the names of the tools it was configured with. -/
structure AssistantRec where
  id : String
  instructions : String
  tools : List String
deriving DecidableEq

/-- The state touched by the `edit_tenant` handler: the `tenants` table,
the process-local `assistants` cache (tenant number to the cached
assistant object), and the server-side assistant records keyed by id. -/
structure AgentState where
  tenantsDb : List Tenant
  assistants : List (String × AssistantRec)
  remote : List AssistantRec

/-- Model of `client.beta.assistants.update(aid, ...instructions...)`: rewrites the
instructions of the server-side record with id `aid`, leaving its id and
tool configuration untouched. -/
def updateAssistantInstr (remote : List AssistantRec) (aid : String)
    (instr : String) : List AssistantRec :=
  remote.map (fun a => if a.id == aid then { a with instructions := instr } else a)

/-- Model of `UPDATE tenants SET system = COALESCE(?, system),
timezone = COALESCE(?, timezone) WHERE number = ?`: the rows after the
update. -/
def updateTenantRows (tenants : List Tenant) (sys tz : Option String)
    (number : String) : List Tenant :=
  tenants.map (fun t =>
    if t.number == number then
      { t with system := sys.getD t.system, timezone := tz.getD t.timezone }
    else t)

/-- Model of `db.prepare("SELECT system FROM tenants WHERE number = ?").pluck().get(n)`. -/
def pluckSystem (tenants : List Tenant) (number : String) : Option String :=
  (tenants.find? (fun t => t.number == number)).map Tenant.system

/-- The `edit_tenant` tool handler: run the tenant `UPDATE`; when a row
was matched, re-read the system prompt and push it into the cached
assistant's server-side record via `assistants[tenant].id` — a missing
cache entry makes that expression throw a `TypeError`. -/
def editTenantHandler (st : AgentState) (sys tz : Option String)
    (tenantNum : String) : Except RuntimeError (AgentState × Nat) :=
  let tenants1 := updateTenantRows st.tenantsDb sys tz tenantNum
  let changes := (st.tenantsDb.filter (fun t => t.number == tenantNum)).length
  if changes > 0 then
    match st.assistants.find? (fun p => p.1 == tenantNum) with
    | none => Except.error (RuntimeError.typeError "assistants[tenant] is undefined")
    | some p =>
        Except.ok
          ({ tenantsDb := tenants1, assistants := st.assistants,
             remote := updateAssistantInstr st.remote p.2.id
               ((pluckSystem tenants1 tenantNum).getD "") },
           changes)
  else
    Except.ok ({ st with tenantsDb := tenants1 }, changes)

/-! Concrete fixtures used by counterexamples and witnesses. -/

/-- A handler that always succeeds. -/
def okHandler : Handler := fun _ _ => Except.ok (Value.str "good")

/-- A handler that always throws. -/
def boomHandler : Handler := fun _ _ => Except.error (RuntimeError.thrown "boom")

/-- A handler that echoes its arguments. -/
def echoHandler : Handler := fun v _ => Except.ok v

/-- A registry with one succeeding and one throwing tool. -/
def cexRegistry : RegistryState :=
  registerFunction (registerFunction emptyRegistry "ok_tool" "d" ⟨[]⟩ okHandler)
    "boom_tool" "d" ⟨[]⟩ boomHandler

/-- The parameter schema of `get_current_weather`: `z.object({ q: z.string() })`. -/
def qSchema : Schema := ⟨[("q", FieldSchema.strField)]⟩

/-- A registry with only the weather tool registered. -/
def weatherReg : RegistryState :=
  registerFunction emptyRegistry "get_current_weather" "d" qSchema echoHandler

/-- A one-tenant `tenants` table. -/
def tenants1 : List Tenant := [⟨"49111", "sys", "Europe/Berlin"⟩]

/-- Registering job id 1 twice with different schedules. -/
def jobsTwice : List Job := [⟨1, "49111", 8, 30, "a"⟩, ⟨1, "49111", 9, 15, "b"⟩]

/-- A schedule state holding the single registered timer of job 1. -/
def sched1 : SchedState := createPrompt tenants1 emptySched (some ⟨1, "49111", 8, 0, "p"⟩)

/-- A one-tenant agent state whose assistant is cached and stored remotely. -/
def agentSt : AgentState :=
  { tenantsDb := [⟨"49111", "old sys", "Europe/Berlin"⟩],
    assistants := [("49111", ⟨"asst_1", "old sys", ["model_infos", "timestamp"]⟩)],
    remote := [⟨"asst_1", "old sys", ["model_infos", "timestamp"]⟩] }

/-! Helper lemmas about tool dispatch. -/

/-- A successful dispatch carries the call id of its tool call. -/
theorem processToolCall_ok_id (functions : String → Option Handler)
    (tid : String) (tc : ToolCall) (out : ToolOutput)
    (h : processToolCall functions tid tc = Except.ok out) :
    out.tool_call_id = tc.id := by
  unfold processToolCall at h
  split at h
  · exact absurd h (by simp)
  · split at h
    · exact absurd h (by simp)
    · cases h; rfl

/-- If every call in the batch dispatches successfully, `Promise.all`
resolves with one output per call, ids matching pointwise. -/
theorem collectOutputs_ok_of_forall (functions : String → Option Handler)
    (tid : String) (calls : List ToolCall)
    (h : ∀ tc ∈ calls, ∃ out, processToolCall functions tid tc = Except.ok out) :
    ∃ outs, collectOutputs functions tid calls = Except.ok outs ∧
      outs.map ToolOutput.tool_call_id = calls.map ToolCall.id := by
  induction calls with
  | nil => exact ⟨[], rfl, rfl⟩
  | cons tc rest ih =>
    obtain ⟨out, hout⟩ := h tc (List.mem_cons_self _ _)
    obtain ⟨outs, houts, hids⟩ := ih (fun tc2 h2 => h tc2 (List.mem_cons_of_mem _ h2))
    refine ⟨out :: outs, ?_, ?_⟩
    · unfold collectOutputs
      rw [hout, houts]
    · simp [hids, processToolCall_ok_id functions tid tc out hout]

/-- If any call in the batch fails to dispatch, `Promise.all` rejects. -/
theorem collectOutputs_error_of_mem (functions : String → Option Handler)
    (tid : String) (calls : List ToolCall) (tc : ToolCall) (e : RuntimeError)
    (hmem : tc ∈ calls) (herr : processToolCall functions tid tc = Except.error e) :
    ∃ e2, collectOutputs functions tid calls = Except.error e2 := by
  induction calls with
  | nil => cases hmem
  | cons hd rest ih =>
    rcases List.mem_cons.mp hmem with rfl | hmem2
    · exact ⟨e, by unfold collectOutputs; rw [herr]⟩
    · unfold collectOutputs
      cases hhd : processToolCall functions tid hd with
      | error e2 => exact ⟨e2, rfl⟩
      | ok out =>
        obtain ⟨e2, h2⟩ := ih hmem2
        exact ⟨e2, by rw [h2]⟩

/-- C1, amended.  `handleRequiresAction` is all-or-nothing: when every
handler in the batch succeeds, the submitted batch has exactly one output
per call with matching ids; but as soon as any single dispatch fails, the
`Promise.all` rejection is caught and logged and nothing at all is
submitted — the sibling calls' successful payloads are discarded. -/
theorem handleRequiresAction_all_or_nothing (functions : String → Option Handler)
    (tid : String) (calls : List ToolCall) :
    ((∀ tc ∈ calls, ∃ out, processToolCall functions tid tc = Except.ok out) →
      ∃ outs, handleRequiresAction functions tid calls = some outs ∧
        outs.map ToolOutput.tool_call_id = calls.map ToolCall.id) ∧
    ((∃ tc ∈ calls, ∃ e, processToolCall functions tid tc = Except.error e) →
      handleRequiresAction functions tid calls = none) := by
  constructor
  · intro h
    obtain ⟨outs, houts, hids⟩ := collectOutputs_ok_of_forall functions tid calls h
    exact ⟨outs, by unfold handleRequiresAction; rw [houts], hids⟩
  · rintro ⟨tc, hmem, e, herr⟩
    obtain ⟨e2, h2⟩ := collectOutputs_error_of_mem functions tid calls tc e hmem herr
    unfold handleRequiresAction
    rw [h2]

/-- C1, counterexample.  A two-call batch in which exactly one handler
throws submits nothing at all: the claimed two-output batch (error output
plus sibling payload) is never produced. -/
theorem handleRequiresAction_drops_batch_cex :
    handleRequiresAction cexRegistry.functions "t1"
        [⟨"call_1", "ok_tool", Value.null⟩, ⟨"call_2", "boom_tool", Value.null⟩] = none ∧
    ¬ ∃ outs,
        handleRequiresAction cexRegistry.functions "t1"
            [⟨"call_1", "ok_tool", Value.null⟩, ⟨"call_2", "boom_tool", Value.null⟩] =
          some outs ∧ outs.length = 2 := by
  have h0 : handleRequiresAction cexRegistry.functions "t1"
      [⟨"call_1", "ok_tool", Value.null⟩, ⟨"call_2", "boom_tool", Value.null⟩] = none := rfl
  refine ⟨h0, ?_⟩
  rintro ⟨outs, h1, -⟩
  rw [h0] at h1
  exact Option.noConfusion h1

/-- C1, witness for the amended theorem at a concrete batch. -/
theorem handleRequiresAction_all_or_nothing_witness :
    handleRequiresAction cexRegistry.functions "t1"
        [⟨"call_1", "ok_tool", Value.null⟩, ⟨"call_2", "boom_tool", Value.null⟩] = none :=
  (handleRequiresAction_all_or_nothing cexRegistry.functions "t1"
      [⟨"call_1", "ok_tool", Value.null⟩, ⟨"call_2", "boom_tool", Value.null⟩]).2
    ⟨⟨"call_2", "boom_tool", Value.null⟩, by simp,
      RuntimeError.thrown "boom", rfl⟩

/-- C5, counterexample.  Dispatch never checks the registered parameter
schema: arguments that do not conform to `get_current_weather`'s schema
are handed to the handler anyway and the dispatch succeeds — no
`ValidationError` exists.  And dispatching an unregistered name raises a
`TypeError` that `handleRequiresAction` catches and logs, silently
dropping the batch instead of surfacing a `NotFoundError` to its caller. -/
theorem dispatch_no_validation_cex :
    conforms qSchema (Value.num 5) = false ∧
    processToolCall weatherReg.functions "t"
        ⟨"c1", "get_current_weather", Value.num 5⟩ =
      Except.ok ⟨"c1", "5"⟩ ∧
    handleRequiresAction weatherReg.functions "t"
        [⟨"c1", "unknown_tool", Value.null⟩] = none :=
  ⟨rfl, rfl, rfl⟩

/-- C5, amended.  Dispatch performs no argument validation: whenever the
name is registered, the handler is invoked on the parsed arguments
unconditionally (conforming to the registered schema or not) and its
result is returned.  When the name is unregistered, the call of the
`undefined` record entry throws a `TypeError`; in any batch containing
such a call, `handleRequiresAction` catches it and submits nothing, so
the failure is absorbed (logged), not surfaced to the caller. -/
theorem dispatch_no_validation (st : RegistryState) (tid : String) (tc : ToolCall) :
    (∀ f, st.functions tc.fname = some f →
      processToolCall st.functions tid tc = dispatchResult tc.id (f tc.arguments tid)) ∧
    (st.functions tc.fname = none →
      processToolCall st.functions tid tc =
        Except.error (RuntimeError.typeError (tc.fname ++ " is not a function")) ∧
      ∀ calls, tc ∈ calls → handleRequiresAction st.functions tid calls = none) := by
  constructor
  · intro f hf
    unfold processToolCall dispatchResult
    rw [hf]
  · intro hf
    have herr : processToolCall st.functions tid tc =
        Except.error (RuntimeError.typeError (tc.fname ++ " is not a function")) := by
      unfold processToolCall
      rw [hf]
    refine ⟨herr, fun calls hmem => ?_⟩
    obtain ⟨e2, h2⟩ := collectOutputs_error_of_mem st.functions tid calls tc _ hmem herr
    unfold handleRequiresAction
    rw [h2]

/-- C5, witness for the amended theorem: the non-conforming dispatch still
runs the handler, and the unregistered batch is dropped. -/
theorem dispatch_no_validation_witness :
    processToolCall weatherReg.functions "t"
        ⟨"c1", "get_current_weather", Value.num 5⟩ =
      dispatchResult "c1" (echoHandler (Value.num 5) "t") ∧
    handleRequiresAction weatherReg.functions "t"
        [⟨"c1", "unknown_tool", Value.null⟩] = none :=
  ⟨(dispatch_no_validation weatherReg "t"
        ⟨"c1", "get_current_weather", Value.num 5⟩).1 echoHandler rfl,
   ((dispatch_no_validation weatherReg "t" ⟨"c1", "unknown_tool", Value.null⟩).2
        rfl).2 [⟨"c1", "unknown_tool", Value.null⟩] (by simp)⟩

/-- C6, confirmed.  Registering the same name twice overwrites the first
handler: dispatching that name afterwards invokes the most recently
registered handler and returns its result. -/
theorem registerFunction_last_writer_wins (st : RegistryState)
    (name d1 d2 : String) (p1 p2 : Schema) (f1 f2 : Handler)
    (cid tid : String) (args : Value) :
    (registerFunction (registerFunction st name d1 p1 f1) name d2 p2 f2).functions
        name = some f2 ∧
    processToolCall
        (registerFunction (registerFunction st name d1 p1 f1) name d2 p2 f2).functions
        tid ⟨cid, name, args⟩ =
      dispatchResult cid (f2 args tid) := by
  constructor
  · simp [registerFunction]
  · unfold processToolCall dispatchResult registerFunction
    simp

/-- C6, witness at a concrete double registration. -/
theorem registerFunction_last_writer_wins_witness :
    (registerFunction (registerFunction emptyRegistry "dup_tool" "d1" ⟨[]⟩ okHandler)
        "dup_tool" "d2" ⟨[]⟩ boomHandler).functions "dup_tool" = some boomHandler ∧
    processToolCall
        (registerFunction (registerFunction emptyRegistry "dup_tool" "d1" ⟨[]⟩ okHandler)
            "dup_tool" "d2" ⟨[]⟩ boomHandler).functions
        "t" ⟨"c1", "dup_tool", Value.null⟩ =
      dispatchResult "c1" (boomHandler Value.null "t") :=
  registerFunction_last_writer_wins emptyRegistry "dup_tool" "d1" "d2" ⟨[]⟩ ⟨[]⟩
    okHandler boomHandler "c1" "t" Value.null

/-- C2, counterexample.  A `thread.run.completed` event on a thread whose
message list contains no assistant-authored message calls `resolve` with
nothing at all — there is no empty/placeholder result, and the caller's
promise is left pending. -/
theorem onEvent_completed_unresolved_cex :
    onEvent (fun _ => none) [⟨"user", [MessageContent.text "hi"]⟩]
        ⟨"thread.run.completed", none, none, "run1", "th1"⟩ =
      { resolved := none, submitted := none } := rfl

/-- C2, amended.  On a `thread.run.completed` event whose thread holds no
assistant-authored message — or whose assistant messages all have a
non-textual (or absent) first content part — `onEvent` neither resolves
nor submits anything: the guard `answer?.type === "text"` fails and the
branch simply falls through, so the caller's promise stays unresolved (no
placeholder result is produced; no exception escapes either). -/
theorem onEvent_completed_no_assistant (functions : String → Option Handler)
    (messages : List ThreadMessage) (e : StreamEvent)
    (he : e.event = "thread.run.completed")
    (hm : ∀ m ∈ messages, m.role = "assistant" →
        ∀ v, m.content.head? ≠ some (MessageContent.text v)) :
    onEvent functions messages e = { resolved := none, submitted := none } := by
  have hca : completedAnswer messages = none := by
    cases hfind : messages.find? (fun m => m.role == "assistant") with
    | none => simp [completedAnswer, hfind]
    | some m =>
      have hmem := List.mem_of_find?_eq_some hfind
      have hrole0 := List.find?_some hfind
      have hrole : m.role = "assistant" := by simpa using hrole0
      cases hh : m.content.head? with
      | none => simp [completedAnswer, hfind, hh]
      | some c =>
        cases c with
        | text v => exact absurd hh (hm m hmem hrole v)
        | nonText k => simp [completedAnswer, hfind, hh]
  unfold onEvent
  rw [he, hca]
  simp

/-- C2, witness at two concrete completed events: a thread with no
assistant message at all, and a thread whose assistant message has a
non-textual first content part. -/
theorem onEvent_completed_no_assistant_witness :
    onEvent (fun _ => none) [⟨"user", [MessageContent.text "hi"]⟩]
        ⟨"thread.run.completed", none, some "x", "run9", "th9"⟩ =
      { resolved := none, submitted := none } ∧
    onEvent (fun _ => none) [⟨"assistant", [MessageContent.nonText "image_file"]⟩]
        ⟨"thread.run.completed", none, none, "run10", "th10"⟩ =
      { resolved := none, submitted := none } :=
  ⟨onEvent_completed_no_assistant (fun _ => none)
      [⟨"user", [MessageContent.text "hi"]⟩]
      ⟨"thread.run.completed", none, some "x", "run9", "th9"⟩ rfl
      (by intro m hmem hrole
          simp at hmem
          rw [hmem] at hrole
          exact absurd hrole (by decide)),
   onEvent_completed_no_assistant (fun _ => none)
      [⟨"assistant", [MessageContent.nonText "image_file"]⟩]
      ⟨"thread.run.completed", none, none, "run10", "th10"⟩ rfl
      (by intro m hmem hrole v
          simp at hmem
          rw [hmem]
          simp)⟩

/-- C3, counterexample.  `onEvent` has no branch for
`thread.run.cancelled`: on a cancelled run the caller is left unresolved
even when an upstream reason is available, contradicting the claim that
both failed and cancelled runs resolve with a textual failure message. -/
theorem onEvent_cancelled_unresolved_cex :
    onEvent (fun _ => none) []
        ⟨"thread.run.cancelled", none, some "user cancelled", "run1", "th1"⟩ =
      { resolved := none, submitted := none } := rfl

/-- C3, amended.  Only `thread.run.failed` resolves, with the German
failure message interpolating the upstream reason (`"undefined"` when the
reason is missing); a `thread.run.cancelled` event matches no branch, so
on that event nothing is resolved or submitted and the caller's promise
stays pending. -/
theorem onEvent_failed_resolves_cancelled_ignored
    (functions : String → Option Handler) (messages : List ThreadMessage)
    (e : StreamEvent) :
    (e.event = "thread.run.failed" →
      onEvent functions messages e =
        { resolved := some ("Der Run ist fehlgeschlagen: " ++ e.lastError.getD "undefined"),
          submitted := none }) ∧
    (e.event = "thread.run.cancelled" →
      onEvent functions messages e = { resolved := none, submitted := none }) := by
  constructor
  · intro he
    unfold onEvent
    rw [he]
    simp
  · intro he
    unfold onEvent
    rw [he]
    simp

/-- C3, witness: a failed run with a reason resolves with the reason in
the message; a cancelled run resolves nothing. -/
theorem onEvent_failed_resolves_cancelled_ignored_witness :
    onEvent (fun _ => none) []
        ⟨"thread.run.failed", none, some "rate limit", "run1", "th1"⟩ =
      { resolved := some "Der Run ist fehlgeschlagen: rate limit",
        submitted := none } ∧
    onEvent (fun _ => none) []
        ⟨"thread.run.cancelled", none, some "stopped", "run2", "th2"⟩ =
      { resolved := none, submitted := none } :=
  ⟨(onEvent_failed_resolves_cancelled_ignored (fun _ => none) []
      ⟨"thread.run.failed", none, some "rate limit", "run1", "th1"⟩).1 rfl,
   (onEvent_failed_resolves_cancelled_ignored (fun _ => none) []
      ⟨"thread.run.cancelled", none, some "stopped", "run2", "th2"⟩).2 rfl⟩

/-! Helper lemmas about the schedule registry. -/

/-- Stopping a timer does not change the length of the timer log. -/
theorem stopAt_length (l : List Timer) (i : Nat) :
    (stopAt l i).length = l.length := by
  induction l generalizing i with
  | nil => rfl
  | cons t rest ih =>
    cases i with
    | zero => rfl
    | succ n => simp [stopAt, ih]

/-- Stopping one timer leaves every other index of the log untouched. -/
theorem stopAt_get_ne (l : List Timer) (i k : Nat) (hk : k < l.length)
    (hk2 : k < (stopAt l i).length) (hne : k ≠ i) :
    (stopAt l i).get ⟨k, hk2⟩ = l.get ⟨k, hk⟩ := by
  induction l generalizing i k with
  | nil => exact absurd hk (by simp)
  | cons t rest ih =>
    cases i with
    | zero =>
      cases k with
      | zero => exact absurd rfl hne
      | succ m => rfl
    | succ n =>
      cases k with
      | zero => rfl
      | succ m =>
        simp only [stopAt, List.get]
        exact ih n m (Nat.lt_of_succ_lt_succ hk)
          (by simpa [stopAt] using hk2) (fun h => hne (by rw [h]))

/-- The stopped timer keeps its schedule but is no longer running. -/
theorem stopAt_get_self (l : List Timer) (i : Nat) (hi : i < l.length)
    (hi2 : i < (stopAt l i).length) :
    (stopAt l i).get ⟨i, hi2⟩ = { l.get ⟨i, hi⟩ with running := false } := by
  induction l generalizing i with
  | nil => exact absurd hi (by simp)
  | cons t rest ih =>
    cases i with
    | zero => rfl
    | succ n =>
      simp only [stopAt, List.get]
      exact ih n (Nat.lt_of_succ_lt_succ hi) (by simpa [stopAt] using hi2)

/-- Stopping never changes a timer's job id. -/
theorem stopAt_get_jobId (l : List Timer) (i k : Nat) (hk : k < l.length)
    (hk2 : k < (stopAt l i).length) :
    ((stopAt l i).get ⟨k, hk2⟩).jobId = (l.get ⟨k, hk⟩).jobId := by
  by_cases h : k = i
  · subst h
    rw [stopAt_get_self l k hk hk2]
  · rw [stopAt_get_ne l i k hk hk2 h]

/-- Appending on the left leaves existing indices untouched. -/
theorem list_get_append_left {α : Type} (l l2 : List α) (k : Nat)
    (hk : k < l.length) (hk2 : k < (l ++ l2).length) :
    (l ++ l2).get ⟨k, hk2⟩ = l.get ⟨k, hk⟩ := by
  induction l generalizing k with
  | nil => exact absurd hk (by simp)
  | cons a rest ih =>
    cases k with
    | zero => rfl
    | succ m =>
      simp only [List.cons_append, List.get]
      exact ih m (Nat.lt_of_succ_lt_succ hk) (by simpa using hk2)

/-- The element appended at the end sits at index `l.length`. -/
theorem list_get_append_last {α : Type} (l : List α) (x : α)
    (h : l.length < (l ++ [x]).length) :
    (l ++ [x]).get ⟨l.length, h⟩ = x := by
  induction l with
  | nil => rfl
  | cons a rest ih =>
    simp only [List.cons_append, List.get, List.length_cons]
    exact ih (by simp)

/-- Stopping the timer at an index whose job id is not `J` does not
change the live timers of `J`. -/
theorem filter_stopAt_ne (l : List Timer) (i : Nat) (J : Nat)
    (hi : i < l.length) (hne : (l.get ⟨i, hi⟩).jobId ≠ J) :
    (stopAt l i).filter (fun t => t.jobId == J && t.running) =
      l.filter (fun t => t.jobId == J && t.running) := by
  induction l generalizing i with
  | nil => rfl
  | cons t rest ih =>
    cases i with
    | zero =>
      have ht : (t.jobId == J) = false := by
        simpa using hne
      simp [stopAt, List.filter, ht]
    | succ n =>
      simp only [stopAt, List.filter]
      rw [ih n (Nat.lt_of_succ_lt_succ hi) hne]

/-- The empty registry satisfies the invariant. -/
theorem schedInv_empty : SchedInv emptySched := by
  constructor
  · intro J i h
    exact absurd h (by simp [emptySched])
  · intro k hk
    exact absurd hk (by simp [emptySched])

/-- Anatomy of one `createPrompt` step on an invariant-satisfying state:
the new log is the old log (with the replaced timer stopped, when there
was one) plus the fresh running timer, the record entry is overwritten,
no surviving old timer of `j.id` is still running, and the live timers of
every other job id are untouched. -/
theorem createPrompt_props (tenants : List Tenant) (s : SchedState) (j : Job)
    (hInv : SchedInv s) :
    ∃ timers1 : List Timer,
      createPrompt tenants s (some j) =
        { timers := timers1 ++
            [⟨j.id, j.minute, j.hour, lookupTimezone tenants j.tenant, true⟩],
          cronJobs := fun jj => if jj = j.id then some timers1.length
                                else s.cronJobs jj } ∧
      timers1.length = s.timers.length ∧
      (∀ k (hk2 : k < timers1.length) (hk : k < s.timers.length),
          (timers1.get ⟨k, hk2⟩).jobId = (s.timers.get ⟨k, hk⟩).jobId) ∧
      (∀ k (hk2 : k < timers1.length), (timers1.get ⟨k, hk2⟩).running = true →
          s.cronJobs ((timers1.get ⟨k, hk2⟩).jobId) = some k ∧
            (timers1.get ⟨k, hk2⟩).jobId ≠ j.id) ∧
      (∀ J, J ≠ j.id →
          timers1.filter (fun t => t.jobId == J && t.running) =
            s.timers.filter (fun t => t.jobId == J && t.running)) := by
  obtain ⟨h1, h2⟩ := hInv
  cases hc : s.cronJobs j.id with
  | none =>
    refine ⟨s.timers, by simp [createPrompt, hc], rfl, fun k hk2 hk => rfl, ?_, ?_⟩
    · intro k hk2 hr
      refine ⟨h2 k hk2 hr, fun heq => ?_⟩
      have := h2 k hk2 hr
      rw [heq, hc] at this
      exact Option.noConfusion this
    · intro J hJ
      rfl
  | some i0 =>
    obtain ⟨hi0, hjob⟩ := h1 j.id i0 hc
    refine ⟨stopAt s.timers i0, by simp [createPrompt, hc], stopAt_length _ _,
      fun k hk2 hk => stopAt_get_jobId s.timers i0 k hk hk2, ?_, ?_⟩
    · intro k hk2 hr
      by_cases hki : k = i0
      · subst hki
        rw [stopAt_get_self s.timers k hi0 hk2] at hr
        exact absurd hr (by simp)
      · have hk : k < s.timers.length := by
          rw [← stopAt_length s.timers i0]; exact hk2
        rw [stopAt_get_ne s.timers i0 k hk hk2 hki] at hr ⊢
        refine ⟨h2 k hk hr, fun heq => ?_⟩
        have := h2 k hk hr
        rw [heq, hc] at this
        exact hki (Option.some.inj this).symm
    · intro J hJ
      exact filter_stopAt_ne s.timers i0 J hi0 (by rw [hjob]; exact fun h => hJ h.symm)

/-- The operation `createPrompt` preserves the registry invariant. -/
theorem schedInv_createPrompt (tenants : List Tenant) (s : SchedState) (j : Job)
    (hInv : SchedInv s) : SchedInv (createPrompt tenants s (some j)) := by
  obtain ⟨timers1, heq, hlen, hget, hrun, -⟩ := createPrompt_props tenants s j hInv
  obtain ⟨h1, -⟩ := hInv
  rw [heq]
  constructor
  · intro J i hJi
    simp only at hJi
    by_cases hJ : J = j.id
    · subst hJ
      rw [if_pos rfl] at hJi
      have hi : i = timers1.length := (Option.some.inj hJi).symm
      subst hi
      have hb : timers1.length < (timers1 ++
          [(⟨j.id, j.minute, j.hour, lookupTimezone tenants j.tenant, true⟩ : Timer)]).length := by
        simp
      refine ⟨hb, ?_⟩
      rw [list_get_append_last]
    · rw [if_neg hJ] at hJi
      obtain ⟨hi, hjid⟩ := h1 J i hJi
      have hi2 : i < timers1.length := by rw [hlen]; exact hi
      have hb : i < (timers1 ++
          [(⟨j.id, j.minute, j.hour, lookupTimezone tenants j.tenant, true⟩ : Timer)]).length := by
        simp
        omega
      refine ⟨hb, ?_⟩
      rw [list_get_append_left _ _ i hi2 hb, hget i hi2 hi, hjid]
  · intro k hk hr
    simp only
    have hk2 : k < timers1.length + 1 := by simpa using hk
    rcases Nat.lt_succ_iff_lt_or_eq.mp hk2 with hlt | heqk
    · rw [list_get_append_left _ _ k hlt hk] at hr ⊢
      obtain ⟨hcron, hne⟩ := hrun k hlt hr
      rw [if_neg hne]
      exact hcron
    · subst heqk
      rw [list_get_append_last] at hr ⊢
      rw [if_pos rfl]

/-- After registering job `j` the live timers for `j.id` are exactly the
freshly installed one. -/
theorem createPrompt_live_self (tenants : List Tenant) (s : SchedState) (j : Job)
    (hInv : SchedInv s) :
    liveFor (createPrompt tenants s (some j)) j.id =
      [⟨j.id, j.minute, j.hour, lookupTimezone tenants j.tenant, true⟩] := by
  obtain ⟨timers1, heq, hlen, hget, hrun, -⟩ := createPrompt_props tenants s j hInv
  rw [heq]
  unfold liveFor
  simp only [List.filter_append]
  have hnil : timers1.filter (fun t => t.jobId == j.id && t.running) = [] := by
    rw [List.filter_eq_nil_iff]
    intro t ht
    obtain ⟨⟨k, hk⟩, hgt⟩ := List.mem_iff_get.mp ht
    intro hp
    rw [Bool.and_eq_true, beq_iff_eq] at hp
    obtain ⟨hcron, hne⟩ := hrun k hk (by rw [hgt]; exact hp.2)
    rw [hgt] at hne
    exact hne hp.1
  rw [hnil]
  simp

/-- Registering job `j` does not touch the live timers of any other id. -/
theorem createPrompt_live_frame (tenants : List Tenant) (s : SchedState)
    (j : Job) (J : Nat) (hInv : SchedInv s) (hJ : J ≠ j.id) :
    liveFor (createPrompt tenants s (some j)) J = liveFor s J := by
  obtain ⟨timers1, heq, -, -, -, hframe⟩ := createPrompt_props tenants s j hInv
  rw [heq]
  unfold liveFor
  simp only [List.filter_append]
  rw [hframe J hJ]
  have : (fun t => t.jobId == J && t.running)
      (⟨j.id, j.minute, j.hour, lookupTimezone tenants j.tenant, true⟩ : Timer) = false := by
    simp
    exact fun h => hJ h.symm
  simp [this]

/-- The last registration for `J` indeed carries job id `J`. -/
theorem lastRegistered_id (J : Nat) (jobs : List Job) (job : Job)
    (h : lastRegistered J jobs = some job) : job.id = J := by
  induction jobs with
  | nil => exact absurd h (by simp [lastRegistered])
  | cons j rest ih =>
    unfold lastRegistered at h
    cases hl : lastRegistered J rest with
    | some job2 =>
      rw [hl] at h
      exact ih (by rw [hl, Option.some.inj h])
    | none =>
      rw [hl] at h
      by_cases hj : j.id = J
      · rw [if_pos hj] at h
        rw [← Option.some.inj h]
        exact hj
      · rw [if_neg hj] at h
        exact Option.noConfusion h

/-- After any sequence of `createPrompt` calls, the live timers for `J`
are the single timer of the last registration for `J` (or whatever they
were before, when the sequence never registers `J`). -/
theorem runCreates_liveFor (tenants : List Tenant) (J : Nat) (jobs : List Job) :
    ∀ s : SchedState, SchedInv s →
      liveFor (runCreates tenants s jobs) J =
        (match lastRegistered J jobs with
         | some job =>
             [⟨job.id, job.minute, job.hour, lookupTimezone tenants job.tenant, true⟩]
         | none => liveFor s J) := by
  induction jobs with
  | nil => intro s _; rfl
  | cons j rest ih =>
    intro s hInv
    have hInv2 := schedInv_createPrompt tenants s j hInv
    have hrec := ih (createPrompt tenants s (some j)) hInv2
    have hstep : runCreates tenants s (j :: rest) =
        runCreates tenants (createPrompt tenants s (some j)) rest := rfl
    rw [hstep, hrec]
    cases hl : lastRegistered J rest with
    | some job => simp [lastRegistered, hl]
    | none =>
      by_cases hj : j.id = J
      · simp only [lastRegistered, hl, if_pos hj]
        subst hj
        exact createPrompt_live_self tenants s j hInv
      · simp only [lastRegistered, hl, if_neg hj]
        exact createPrompt_live_frame tenants s j J hInv (fun h => hj h.symm)

/-- C4, confirmed.  Starting from the empty registry, after any sequence
of `createPrompt` registrations that registers job id `J` at least once,
exactly one live timer for `J` exists (every earlier one was stopped
before its replacement was installed), and it carries the hour and minute
of the most recent registration for `J`. -/
theorem createPrompt_unique_live_timer (tenants : List Tenant) (jobs : List Job)
    (J : Nat) (job : Job) (h : lastRegistered J jobs = some job) :
    job.id = J ∧
    liveFor (runCreates tenants emptySched jobs) J =
      [⟨job.id, job.minute, job.hour, lookupTimezone tenants job.tenant, true⟩] := by
  refine ⟨lastRegistered_id J jobs job h, ?_⟩
  have hmain := runCreates_liveFor tenants J jobs emptySched schedInv_empty
  rw [h] at hmain
  exact hmain

/-- C4, witness: registering job id 1 at 8:30 and then again at 9:15
leaves exactly one live timer, firing at 9:15 Berlin time. -/
theorem createPrompt_unique_live_timer_witness :
    liveFor (runCreates tenants1 emptySched jobsTwice) 1 =
      [⟨1, 15, 9, some "Europe/Berlin", true⟩] :=
  (createPrompt_unique_live_timer tenants1 jobsTwice 1
      ⟨1, "49111", 9, 15, "b"⟩ rfl).2

/-- C8, counterexample.  Registering a job whose tenant has no resolvable
timezone does not fail: `createPrompt` installs a live timer anyway, with
an absent timezone, instead of raising a `NotFoundError`. -/
theorem createPrompt_missing_timezone_cex :
    lookupTimezone [] "t" = none ∧
    liveFor (createPrompt [] emptySched (some ⟨1, "t", 8, 30, "p"⟩)) 1 =
      [⟨1, 30, 8, none, true⟩] :=
  ⟨rfl, rfl⟩

/-- C8, amended.  When the tenant's timezone cannot be resolved from the
store at registration time, `createPrompt` does not fail: it silently
installs the new live timer with no timezone (the cron library then falls
back to the system timezone). -/
theorem createPrompt_missing_timezone (tenants : List Tenant) (s : SchedState)
    (job : Job) (hInv : SchedInv s)
    (htz : lookupTimezone tenants job.tenant = none) :
    liveFor (createPrompt tenants s (some job)) job.id =
      [⟨job.id, job.minute, job.hour, none, true⟩] := by
  have hlive := createPrompt_live_self tenants s job hInv
  rw [htz] at hlive
  exact hlive

/-- C8, witness: a concrete registration against an empty tenants table. -/
theorem createPrompt_missing_timezone_witness :
    liveFor (createPrompt [] emptySched (some ⟨7, "nobody", 6, 45, "p"⟩)) 7 =
      [⟨7, 45, 6, none, true⟩] :=
  createPrompt_missing_timezone [] emptySched ⟨7, "nobody", 6, 45, "p"⟩
    schedInv_empty rfl

/-- C7, confirmed.  Deleting a job that exists for the calling tenant
removes its stored row, and synchronously stops and removes its
registered timer within the same handler invocation, leaving every other
timer and registry entry untouched; deleting a job id with no matching
row for the tenant returns unchanged state and zero changes — a no-op,
not an error. -/
theorem delete_prompt_stops_timer (jobs : List Job) (s : SchedState)
    (tenant : String) (argsId : Nat) :
    ((∃ j ∈ jobs, j.tenant = tenant ∧ j.id = argsId) →
      ∀ i, s.cronJobs argsId = some i →
        (∀ j ∈ (deletePromptHandler jobs s tenant argsId).1,
            ¬(j.tenant = tenant ∧ j.id = argsId)) ∧
        0 < (deletePromptHandler jobs s tenant argsId).2.2 ∧
        (deletePromptHandler jobs s tenant argsId).2.1.cronJobs argsId = none ∧
        (∀ hi2 : i < (deletePromptHandler jobs s tenant argsId).2.1.timers.length,
            ((deletePromptHandler jobs s tenant argsId).2.1.timers.get
                ⟨i, hi2⟩).running = false) ∧
        (∀ id2, id2 ≠ argsId →
            (deletePromptHandler jobs s tenant argsId).2.1.cronJobs id2 =
              s.cronJobs id2) ∧
        (∀ k, k ≠ i → ∀ (hk : k < s.timers.length)
            (hk2 : k < (deletePromptHandler jobs s tenant argsId).2.1.timers.length),
            (deletePromptHandler jobs s tenant argsId).2.1.timers.get ⟨k, hk2⟩ =
              s.timers.get ⟨k, hk⟩)) ∧
    ((∀ j ∈ jobs, ¬(j.tenant = tenant ∧ j.id = argsId)) →
      deletePromptHandler jobs s tenant argsId = (jobs, s, 0)) := by
  constructor
  · rintro ⟨j, hj, hjt, hjid⟩ i hci
    have hchanges : 0 <
        (jobs.filter (fun j2 => j2.tenant == tenant && j2.id == argsId)).length := by
      have : j ∈ jobs.filter (fun j2 => j2.tenant == tenant && j2.id == argsId) :=
        List.mem_filter.mpr ⟨hj, by simp [hjt, hjid]⟩
      exact List.length_pos.mpr (List.ne_nil_of_mem this)
    have hred : deletePromptHandler jobs s tenant argsId =
        (jobs.filter (fun j2 => !(j2.tenant == tenant && j2.id == argsId)),
         { timers := stopAt s.timers i,
           cronJobs := fun j2 => if j2 = argsId then none else s.cronJobs j2 },
         (jobs.filter (fun j2 => j2.tenant == tenant && j2.id == argsId)).length) := by
      simp only [deletePromptHandler]
      rw [if_pos hchanges, hci]
    rw [hred]
    refine ⟨?_, hchanges, by simp, ?_, ?_, ?_⟩
    · intro j2 hj2
      have hmf := (List.mem_filter.mp hj2).2
      simp at hmf
      rintro ⟨h1, h2⟩
      rcases hmf with h | h
      · exact h h1
      · exact h h2
    · intro hi2
      have hi : i < s.timers.length := by
        rw [← stopAt_length s.timers i]; exact hi2
      rw [stopAt_get_self s.timers i hi hi2]
    · intro id2 hid2
      simp [hid2]
    · intro k hk hkb hk2
      exact stopAt_get_ne s.timers i k hkb hk2 hk
  · intro hnone
    have hp : ∀ j ∈ jobs, (j.tenant == tenant && j.id == argsId) = false := by
      intro j hj
      have hn := hnone j hj
      simp only [Bool.and_eq_false_iff, beq_eq_false_iff_ne]
      by_cases ht : j.tenant = tenant
      · exact Or.inr (fun hid => hn ⟨ht, hid⟩)
      · exact Or.inl ht
    have hch0 : jobs.filter (fun j2 => j2.tenant == tenant && j2.id == argsId) = [] :=
      List.filter_eq_nil_iff.mpr (fun a ha => by rw [hp a ha]; simp)
    have hrem : jobs.filter (fun j2 => !(j2.tenant == tenant && j2.id == argsId)) = jobs :=
      List.filter_eq_self.mpr (fun a ha => by rw [hp a ha]; rfl)
    simp only [deletePromptHandler]
    rw [hch0, hrem]
    rfl

/-- C7, witness: deleting the stored job stops and removes its timer;
deleting an absent id is a no-op on rows, timers and registry. -/
theorem delete_prompt_stops_timer_witness :
    0 < (deletePromptHandler [⟨1, "49111", 8, 0, "p"⟩] sched1 "49111" 1).2.2 ∧
    (deletePromptHandler [⟨1, "49111", 8, 0, "p"⟩] sched1 "49111" 1).2.1.cronJobs 1 =
      none ∧
    (deletePromptHandler [⟨1, "49111", 8, 0, "p"⟩] sched1 "49111" 1).2.1.cronJobs 2 =
      sched1.cronJobs 2 ∧
    deletePromptHandler [⟨1, "49111", 8, 0, "p"⟩] sched1 "49111" 99 =
      ([⟨1, "49111", 8, 0, "p"⟩], sched1, 0) := by
  have h := (delete_prompt_stops_timer [⟨1, "49111", 8, 0, "p"⟩] sched1 "49111" 1).1
    ⟨⟨1, "49111", 8, 0, "p"⟩, by simp, rfl, rfl⟩ 0 rfl
  have h99 := (delete_prompt_stops_timer [⟨1, "49111", 8, 0, "p"⟩] sched1 "49111" 99).2
    (by intro j hj; simp at hj; rw [hj]; rintro ⟨-, h2⟩; exact absurd h2 (by decide))
  exact ⟨h.2.1, h.2.2.1, h.2.2.2.2.1 2 (by decide), h99⟩

/-- Mapping a row transformer that preserves the tenant column and fixes
every row of other tenants leaves the other tenants' rows unchanged. -/
theorem filter_map_preserves_other_tenants (T : String) (f : Job → Job)
    (hften : ∀ j, (f j).tenant = j.tenant)
    (hfix : ∀ j, j.tenant ≠ T → f j = j) (jobs : List Job) :
    (jobs.map f).filter (fun j => !(j.tenant == T)) =
      jobs.filter (fun j => !(j.tenant == T)) := by
  induction jobs with
  | nil => rfl
  | cons j rest ih =>
    rw [List.map_cons, List.filter_cons, List.filter_cons]
    by_cases hT : j.tenant = T
    · have h1 : ¬((!((f j).tenant == T)) = true) := by simp [hften j, hT]
      have h2 : ¬((!(j.tenant == T)) = true) := by simp [hT]
      rw [if_neg h1, if_neg h2]
      exact ih
    · have h1 : (!(j.tenant == T)) = true := by simp [hT]
      rw [hfix j hT, if_pos h1, if_pos h1, ih]

/-- Deleting rows with a predicate that keeps every row of other tenants
leaves the other tenants' rows unchanged. -/
theorem filter_keep_preserves_other_tenants (T : String) (q : Job → Bool)
    (hq : ∀ j, j.tenant ≠ T → q j = true) (jobs : List Job) :
    (jobs.filter q).filter (fun j => !(j.tenant == T)) =
      jobs.filter (fun j => !(j.tenant == T)) := by
  induction jobs with
  | nil => rfl
  | cons j rest ih =>
    rw [List.filter_cons]
    by_cases hT : j.tenant = T
    · have h2 : ¬((!(j.tenant == T)) = true) := by simp [hT]
      by_cases hqj : q j = true
      · rw [if_pos hqj, List.filter_cons, if_neg h2, List.filter_cons, if_neg h2]
        exact ih
      · rw [if_neg hqj, List.filter_cons, if_neg h2]
        exact ih
    · have h1 : (!(j.tenant == T)) = true := by simp [hT]
      rw [if_pos (hq j hT), List.filter_cons, if_pos h1, List.filter_cons,
        if_pos h1, ih]

/-- C10, confirmed.  Both `edit_prompt` and `delete_prompt` scope their
SQL mutation by `tenant AND id`: the stored rows of every other tenant
are untouched (in content, multiplicity and order), so a tenant can never
modify or delete another tenant's job through these handlers. -/
theorem prompt_mutations_tenant_scoped (jobs : List Job) (s : SchedState)
    (prompt : Option String) (hour minute : Option Nat) (T : String)
    (argsId : Nat) :
    ((editPromptRows jobs prompt hour minute T argsId).1.filter
        (fun j => !(j.tenant == T)) =
      jobs.filter (fun j => !(j.tenant == T))) ∧
    ((deletePromptHandler jobs s T argsId).1.filter (fun j => !(j.tenant == T)) =
      jobs.filter (fun j => !(j.tenant == T))) ∧
    (∀ J ∈ jobs, J.tenant ≠ T →
      J ∈ (editPromptRows jobs prompt hour minute T argsId).1 ∧
      J ∈ (deletePromptHandler jobs s T argsId).1) := by
  have hedit : (editPromptRows jobs prompt hour minute T argsId).1.filter
      (fun j => !(j.tenant == T)) = jobs.filter (fun j => !(j.tenant == T)) := by
    simp only [editPromptRows]
    refine filter_map_preserves_other_tenants T _ ?_ ?_ jobs
    · intro j2
      by_cases hc : (j2.tenant == T && j2.id == argsId) = true
      · rw [if_pos hc]
      · rw [if_neg hc]
    · intro j2 hj2
      have hc : (j2.tenant == T && j2.id == argsId) = false := by
        rw [Bool.and_eq_false_iff]
        exact Or.inl (by simpa using hj2)
      rw [hc]
      rfl
  have hdel : (deletePromptHandler jobs s T argsId).1.filter
      (fun j => !(j.tenant == T)) = jobs.filter (fun j => !(j.tenant == T)) := by
    simp only [deletePromptHandler]
    refine filter_keep_preserves_other_tenants T _ ?_ jobs
    intro j2 hj2
    have hc : (j2.tenant == T && j2.id == argsId) = false := by
      rw [Bool.and_eq_false_iff]
      exact Or.inl (by simpa using hj2)
    rw [hc]
    rfl
  refine ⟨hedit, hdel, ?_⟩
  intro J hJ hJT
  have hmem : J ∈ jobs.filter (fun j => !(j.tenant == T)) :=
    List.mem_filter.mpr ⟨hJ, by simpa using hJT⟩
  constructor
  · have : J ∈ (editPromptRows jobs prompt hour minute T argsId).1.filter
        (fun j => !(j.tenant == T)) := by rw [hedit]; exact hmem
    exact (List.mem_filter.mp this).1
  · have : J ∈ (deletePromptHandler jobs s T argsId).1.filter
        (fun j => !(j.tenant == T)) := by rw [hdel]; exact hmem
    exact (List.mem_filter.mp this).1

/-- C10, witness: with a foreign tenant's row stored, `edit_prompt` and
`delete_prompt` invoked by tenant `"49111"` with that row's id leave the
row unchanged. -/
theorem prompt_mutations_tenant_scoped_witness :
    (editPromptRows [⟨1, "other", 8, 0, "p"⟩] (some "x") none none "49111" 1).1.filter
        (fun j => !(j.tenant == "49111")) =
      [⟨1, "other", 8, 0, "p"⟩].filter (fun j => !(j.tenant == "49111")) ∧
    (⟨1, "other", 8, 0, "p"⟩ : Job) ∈
      (editPromptRows [⟨1, "other", 8, 0, "p"⟩] (some "x") none none "49111" 1).1 ∧
    (⟨1, "other", 8, 0, "p"⟩ : Job) ∈
      (deletePromptHandler [⟨1, "other", 8, 0, "p"⟩] sched1 "49111" 1).1 := by
  have h := prompt_mutations_tenant_scoped [⟨1, "other", 8, 0, "p"⟩] sched1
    (some "x") none none "49111" 1
  have hm := h.2.2 ⟨1, "other", 8, 0, "p"⟩ (by simp) (by decide)
  exact ⟨h.1, hm.1, hm.2⟩

/-! Helper lemmas for the `edit_tenant` propagation. -/

/-- The lookup `find?` commutes with a row transformer that preserves the key. -/
theorem find?_tenant_map (l : List Tenant) (f : Tenant → Tenant) (n : String)
    (hf : ∀ t, (f t).number = t.number) :
    (l.map f).find? (fun t => t.number == n) =
      (l.find? (fun t => t.number == n)).map f := by
  induction l with
  | nil => rfl
  | cons t rest ih =>
    rw [List.map_cons]
    by_cases ht : (t.number == n) = true
    · have h1 : List.find? (fun t2 => t2.number == n) (f t :: List.map f rest) =
          some (f t) :=
        List.find?_cons_of_pos _ (by show ((f t).number == n) = true
                                     rw [hf t]; exact ht)
      have h2 : List.find? (fun t2 => t2.number == n) (t :: rest) = some t :=
        List.find?_cons_of_pos _ ht
      rw [h1, h2]
      rfl
    · have h1 : List.find? (fun t2 => t2.number == n) (f t :: List.map f rest) =
          List.find? (fun t2 => t2.number == n) (List.map f rest) :=
        List.find?_cons_of_neg _ (by show ¬(((f t).number == n) = true)
                                     rw [hf t]; exact ht)
      have h2 : List.find? (fun t2 => t2.number == n) (t :: rest) =
          List.find? (fun t2 => t2.number == n) rest :=
        List.find?_cons_of_neg _ ht
      rw [h1, h2]
      exact ih

/-- Re-reading the system prompt after the tenant `UPDATE` yields exactly
the newly written value. -/
theorem pluckSystem_update (tenants : List Tenant) (newSys : String)
    (tz : Option String) (number : String) (trow : Tenant)
    (htr : tenants.find? (fun t => t.number == number) = some trow) :
    pluckSystem (updateTenantRows tenants (some newSys) tz number) number =
      some newSys := by
  unfold pluckSystem updateTenantRows
  rw [find?_tenant_map tenants _ number (fun t => by
      by_cases hc : (t.number == number) = true
      · rw [if_pos hc]
      · rw [if_neg hc]),
    htr]
  have hpred0 := List.find?_some htr
  have hpred : (trow.number == number) = true := hpred0
  simp only [Option.map_some']
  rw [if_pos hpred]
  rfl

/-- Pushing new instructions to one assistant preserves every id. -/
theorem updateAssistantInstr_ids (remote : List AssistantRec)
    (aid instr : String) :
    (updateAssistantInstr remote aid instr).map AssistantRec.id =
      remote.map AssistantRec.id := by
  unfold updateAssistantInstr
  induction remote with
  | nil => rfl
  | cons a rest ih =>
    rw [List.map_cons, List.map_cons, List.map_cons]
    have hhead :
        (if (a.id == aid) = true then { a with instructions := instr } else a).id =
          a.id := by
      by_cases hc : (a.id == aid) = true
      · rw [if_pos hc]
      · rw [if_neg hc]
    rw [hhead, ih]

/-- Pushing new instructions preserves every tool configuration. -/
theorem updateAssistantInstr_tools (remote : List AssistantRec)
    (aid instr : String) :
    (updateAssistantInstr remote aid instr).map AssistantRec.tools =
      remote.map AssistantRec.tools := by
  unfold updateAssistantInstr
  induction remote with
  | nil => rfl
  | cons a rest ih =>
    rw [List.map_cons, List.map_cons, List.map_cons]
    have hhead :
        (if (a.id == aid) = true then { a with instructions := instr } else a).tools =
          a.tools := by
      by_cases hc : (a.id == aid) = true
      · rw [if_pos hc]
      · rw [if_neg hc]
    rw [hhead, ih]

/-- After the push, the targeted assistant carries the new instructions. -/
theorem updateAssistantInstr_target (remote : List AssistantRec)
    (aid instr : String) :
    ∀ a ∈ updateAssistantInstr remote aid instr, a.id = aid →
      a.instructions = instr := by
  intro a ha haid
  unfold updateAssistantInstr at ha
  obtain ⟨b, hb, hfb⟩ := List.mem_map.mp ha
  by_cases hc : (b.id == aid) = true
  · rw [if_pos hc] at hfb
    rw [← hfb]
  · rw [if_neg hc] at hfb
    rw [← hfb] at haid
    exact absurd (by simp [haid]) hc

/-- Assistants with another id are untouched by the push. -/
theorem updateAssistantInstr_frame (remote : List AssistantRec)
    (aid instr : String) :
    ∀ a ∈ remote, a.id ≠ aid → a ∈ updateAssistantInstr remote aid instr := by
  intro a ha hne
  unfold updateAssistantInstr
  refine List.mem_map.mpr ⟨a, ha, ?_⟩
  rw [if_neg (by simpa using hne)]

/-- C9, confirmed.  When `edit_tenant` changes a stored tenant row and an
assistant is cached for that tenant, the handler pushes the re-read
system prompt into the cached assistant's server-side record by id: the
cache entry itself is neither invalidated nor replaced, every assistant
id and tool configuration is preserved, the targeted record carries the
new instructions, and every other record is untouched. -/
theorem edit_tenant_updates_in_place (st : AgentState)
    (tenantNum newSys tn : String) (cached : AssistantRec) (trow : Tenant)
    (hca : st.assistants.find? (fun p => p.1 == tenantNum) = some (tn, cached))
    (htr : st.tenantsDb.find? (fun t => t.number == tenantNum) = some trow) :
    ∃ st1 changes,
      editTenantHandler st (some newSys) none tenantNum =
        Except.ok (st1, changes) ∧
      0 < changes ∧
      st1.assistants = st.assistants ∧
      st1.remote.map AssistantRec.id = st.remote.map AssistantRec.id ∧
      st1.remote.map AssistantRec.tools = st.remote.map AssistantRec.tools ∧
      (∀ a ∈ st1.remote, a.id = cached.id → a.instructions = newSys) ∧
      (∀ a ∈ st.remote, a.id ≠ cached.id → a ∈ st1.remote) := by
  have hchanges : 0 <
      (st.tenantsDb.filter (fun t => t.number == tenantNum)).length := by
    have hp0 := List.find?_some htr
    have hmem : trow ∈ st.tenantsDb.filter (fun t => t.number == tenantNum) :=
      List.mem_filter.mpr ⟨List.mem_of_find?_eq_some htr, hp0⟩
    exact List.length_pos.mpr (List.ne_nil_of_mem hmem)
  refine ⟨{ tenantsDb := updateTenantRows st.tenantsDb (some newSys) none tenantNum,
            assistants := st.assistants,
            remote := updateAssistantInstr st.remote cached.id newSys },
          (st.tenantsDb.filter (fun t => t.number == tenantNum)).length,
          ?_, hchanges, rfl, updateAssistantInstr_ids _ _ _,
          updateAssistantInstr_tools _ _ _,
          updateAssistantInstr_target _ _ _,
          updateAssistantInstr_frame _ _ _⟩
  simp only [editTenantHandler]
  rw [if_pos hchanges, hca,
    pluckSystem_update st.tenantsDb newSys none tenantNum trow htr]
  rfl

/-- C9, witness at a concrete one-tenant state with a cached assistant. -/
theorem edit_tenant_updates_in_place_witness :
    ∃ st1 changes,
      editTenantHandler agentSt (some "new sys") none "49111" =
        Except.ok (st1, changes) ∧
      0 < changes ∧
      st1.assistants = agentSt.assistants ∧
      st1.remote.map AssistantRec.id = agentSt.remote.map AssistantRec.id ∧
      st1.remote.map AssistantRec.tools = agentSt.remote.map AssistantRec.tools ∧
      (∀ a ∈ st1.remote, a.id = "asst_1" → a.instructions = "new sys") ∧
      (∀ a ∈ agentSt.remote, a.id ≠ "asst_1" → a ∈ st1.remote) :=
  edit_tenant_updates_in_place agentSt "49111" "new sys" "49111"
    ⟨"asst_1", "old sys", ["model_infos", "timestamp"]⟩
    ⟨"49111", "old sys", "Europe/Berlin"⟩ rfl rfl
